import Mathlib

/-!
Verification development for the nnSeq2Seq inference orchestrator
(`nnseq2seq/inference/predict_from_raw_data.py`) and the 3D image encoder
(`nnseq2seq/networks/seq2seq/model3d/encoder.py`).

The Python code is shallowly embedded: dense tensors become rational-valued
functions over integer index tuples, fallible Python calls become `Except`
values, and third-party library routines (e.g. `np.nanstd`) become function
parameters.  Exact rational arithmetic stands in for floating point wherever
the claims are about algebraic structure rather than rounding.
-/

namespace NnSeq2Seq

/-- A dense tensor of rank `r`: a shape together with a rational value at
every index tuple.  Indices outside the shape are immaterial for the claims
proved here. -/
structure Tensor (r : ℕ) where
  shape : Fin r → ℕ
  val : (Fin r → ℕ) → ℚ

/-- Extensionality for tensors. -/
theorem Tensor.ext_sv {r : ℕ} {a b : Tensor r} (hs : a.shape = b.shape)
    (hv : a.val = b.val) : a = b := by
  cases a; cases b; cases hs; cases hv; rfl

/-- `torch.flip(t, axes)`: reverse the coordinates along each axis in `axes`
(axes given as plain dimension numbers, as passed to `torch.flip` in the
source after the `m + 2` shift). -/
def tflip {r : ℕ} (axes : List ℕ) (t : Tensor r) : Tensor r where
  shape := t.shape
  val := fun idx => t.val (fun d => if d.val ∈ axes then t.shape d - 1 - idx d else idx d)

/-- Pointwise tensor addition (`prediction += ...`); operands share a shape
in the source, the left shape is kept. -/
def tadd {r : ℕ} (a b : Tensor r) : Tensor r where
  shape := a.shape
  val := fun idx => a.val idx + b.val idx

/-- Division of a tensor by a natural scalar (`prediction /= n`). -/
def tdivN {r : ℕ} (a : Tensor r) (n : ℕ) : Tensor r where
  shape := a.shape
  val := fun idx => a.val idx / (n : ℚ)

/-- Sum of a list of tensors on top of an initial tensor (left fold of
pointwise addition, the order the source accumulates in). -/
def tListSum {r : ℕ} (l : List (Tensor r)) (init : Tensor r) : Tensor r :=
  l.foldl tadd init

/-- The triple of outputs of one forward pass: translation, segmentation
mask, latent. -/
abbrev Triple (r : ℕ) := Tensor r × Tensor r × Tensor r

/-- `axes_combinations` from `_internal_maybe_mirror_and_predict`:
`[c for i in range(len(axes)) for c in itertools.combinations(axes, i + 1)]`,
i.e. every non-empty sub-combination of `axes`, grouped by size. -/
def axesCombinations (axes : List ℕ) : List (List ℕ) :=
  (List.range axes.length).flatMap (fun i => List.sublistsLen (i + 1) axes)

/-- `nnSeq2SeqPredictor._internal_maybe_mirror_and_predict`, abstracted over
the forward computation `forward` (the network call of either the
single-sequence branch or the fusion branch; in the fusion branch flipping
the scattered per-channel volume along spatial axes coincides with flipping
the input tile, which is what the abstraction uses).  `use_mirroring` and
`allowed` model `self.use_mirroring` and `self.allowed_mirroring_axes`.
The axes handed to `torch.flip` are the configured axes shifted by `+ 2`
(batch and channel dimensions), exactly as in the source. -/
def maybeMirrorAndPredict {r : ℕ} (use_mirroring : Bool)
    (allowed : Option (List ℕ)) (forward : Tensor r → Triple r)
    (x : Tensor r) : Triple r :=
  let mirrorAxes := if use_mirroring then allowed else none
  let base := forward x
  match mirrorAxes with
  | none => base
  | some axes =>
      let combos := axesCombinations (axes.map (· + 2))
      let acc := combos.foldl (fun p c =>
        let q := forward (tflip c x)
        (tadd p.1 (tflip c q.1), tadd p.2.1 (tflip c q.2.1),
          tadd p.2.2 (tflip c q.2.2))) base
      (tdivN acc.1 (combos.length + 1), tdivN acc.2.1 (combos.length + 1),
        tdivN acc.2.2 (combos.length + 1))

/-- The flipped-back sub-prediction for one axes combination `c` and one of
the three output components selected by `pick`. -/
def mirrorSubPred {r : ℕ} (forward : Tensor r → Triple r) (x : Tensor r)
    (pick : Triple r → Tensor r) (c : List ℕ) : Tensor r :=
  tflip c (pick (forward (tflip c x)))

/-- Sum of a `List.range` fold with addition equals the `Finset` sum. -/
theorem foldl_range_add (N : ℕ) (f : ℕ → ℚ) (c : ℚ) :
    (List.range N).foldl (fun acc j => acc + f j) c = c + ∑ j ∈ Finset.range N, f j := by
  induction N generalizing c with
  | zero => simp
  | succ n ih =>
      rw [List.range_succ, List.foldl_append, ih, Finset.sum_range_succ]
      simp [add_assoc]

/-- Sum of a mapped `List.range` equals the `Finset.range` sum. -/
theorem list_sum_map_range (n : ℕ) (f : ℕ → ℕ) :
    ((List.range n).map f).sum = ∑ i ∈ Finset.range n, f i := by
  induction n with
  | zero => simp
  | succ m ih =>
      rw [List.range_succ, List.map_append, List.sum_append, ih,
        Finset.sum_range_succ]
      simp

/-- Every non-empty combination of a `k`-element axis list appears once:
the count is `2 ^ k - 1`. -/
theorem axesCombinations_length (axes : List ℕ) :
    (axesCombinations axes).length = 2 ^ axes.length - 1 := by
  have hlen : (axesCombinations axes).length
      = ((List.range axes.length).map (fun i => Nat.choose axes.length (i + 1))).sum := by
    simp [axesCombinations, List.length_flatMap, Function.comp_def,
      List.length_sublistsLen]
  rw [hlen, list_sum_map_range]
  have h' := Finset.sum_range_succ' (fun i => Nat.choose axes.length i) axes.length
  rw [Nat.sum_range_choose, Nat.choose_zero_right] at h'
  omega

/-- Folding the triple accumulation componentwise. -/
theorem foldl_triple_eq {r : ℕ} (combos : List (List ℕ))
    (g1 g2 g3 : List ℕ → Tensor r) :
    ∀ b : Triple r,
      combos.foldl (fun p c =>
          (tadd p.1 (g1 c), tadd p.2.1 (g2 c), tadd p.2.2 (g3 c))) b
      = (tListSum (combos.map g1) b.1, tListSum (combos.map g2) b.2.1,
          tListSum (combos.map g3) b.2.2) := by
  induction combos with
  | nil => intro b; simp [tListSum]
  | cons c cs ih =>
      intro b
      simpa [tListSum] using ih (tadd b.1 (g1 c), tadd b.2.1 (g2 c), tadd b.2.2 (g3 c))

/-- Claim C1: with mirroring enabled and `k ≥ 1` configured mirror axes
valid for the tensor rank, `_internal_maybe_mirror_and_predict` evaluates
exactly `2 ^ k - 1` additional flipped forward passes (one per non-empty
combination of the configured axes), flips each result back before
accumulating, and returns translation, mask, and latent each equal to the
sum of all `2 ^ k` sub-predictions (original plus flipped) divided by
`2 ^ k`, their unweighted mean. -/
theorem mirror_augmented_prediction_mean {r : ℕ}
    (axes : List ℕ) (forward : Tensor r → Triple r) (x : Tensor r)
    (hk : 1 ≤ axes.length) (hvalid : ∀ a ∈ axes, a + 3 ≤ r) :
    (axesCombinations (axes.map (· + 2))).length = 2 ^ axes.length - 1 ∧
    maybeMirrorAndPredict true (some axes) forward x
      = (tdivN (tListSum ((axesCombinations (axes.map (· + 2))).map
            (mirrorSubPred forward x (fun t => t.1))) (forward x).1)
            (2 ^ axes.length),
         tdivN (tListSum ((axesCombinations (axes.map (· + 2))).map
            (mirrorSubPred forward x (fun t => t.2.1))) (forward x).2.1)
            (2 ^ axes.length),
         tdivN (tListSum ((axesCombinations (axes.map (· + 2))).map
            (mirrorSubPred forward x (fun t => t.2.2))) (forward x).2.2)
            (2 ^ axes.length)) := by
  have hlen : (axesCombinations (axes.map (· + 2))).length
      = 2 ^ axes.length - 1 := by
    simpa using axesCombinations_length (axes.map (· + 2))
  refine ⟨hlen, ?_⟩
  have hpow : 1 ≤ 2 ^ axes.length := Nat.one_le_two_pow
  have hplus : (axesCombinations (axes.map (· + 2))).length + 1
      = 2 ^ axes.length := by omega
  have hfold := foldl_triple_eq (axesCombinations (axes.map (· + 2)))
    (mirrorSubPred forward x (fun t => t.1))
    (mirrorSubPred forward x (fun t => t.2.1))
    (mirrorSubPred forward x (fun t => t.2.2)) (forward x)
  simp only [mirrorSubPred] at hfold
  simp only [maybeMirrorAndPredict, if_true]
  rw [hfold, hplus]

/-- Witness for C1 at a concrete input: rank-5 tile, a single configured
mirror axis, identity-style forward pass. -/
theorem mirror_augmented_prediction_mean_witness :
    (1 ≤ ([0] : List ℕ).length ∧ ∀ a ∈ ([0] : List ℕ), a + 3 ≤ 5) ∧
    ((axesCombinations (([0] : List ℕ).map (· + 2))).length
        = 2 ^ ([0] : List ℕ).length - 1 ∧
      maybeMirrorAndPredict true (some [0])
          (fun t => (t, t, t))
          (⟨fun _ => 4, fun idx => (idx 2 : ℚ)⟩ : Tensor 5)
        = (tdivN (tListSum ((axesCombinations (([0] : List ℕ).map (· + 2))).map
              (mirrorSubPred (fun t => (t, t, t))
                (⟨fun _ => 4, fun idx => (idx 2 : ℚ)⟩ : Tensor 5) (fun t => t.1)))
              ((fun (t : Tensor 5) => (t, t, t))
                (⟨fun _ => 4, fun idx => (idx 2 : ℚ)⟩ : Tensor 5)).1)
              (2 ^ ([0] : List ℕ).length),
           tdivN (tListSum ((axesCombinations (([0] : List ℕ).map (· + 2))).map
              (mirrorSubPred (fun t => (t, t, t))
                (⟨fun _ => 4, fun idx => (idx 2 : ℚ)⟩ : Tensor 5) (fun t => t.2.1)))
              ((fun (t : Tensor 5) => (t, t, t))
                (⟨fun _ => 4, fun idx => (idx 2 : ℚ)⟩ : Tensor 5)).2.1)
              (2 ^ ([0] : List ℕ).length),
           tdivN (tListSum ((axesCombinations (([0] : List ℕ).map (· + 2))).map
              (mirrorSubPred (fun t => (t, t, t))
                (⟨fun _ => 4, fun idx => (idx 2 : ℚ)⟩ : Tensor 5) (fun t => t.2.2)))
              ((fun (t : Tensor 5) => (t, t, t))
                (⟨fun _ => 4, fun idx => (idx 2 : ℚ)⟩ : Tensor 5)).2.2)
              (2 ^ ([0] : List ℕ).length))) :=
  ⟨⟨by decide, by decide⟩,
    mirror_augmented_prediction_mean [0] (fun t => (t, t, t))
      (⟨fun _ => 4, fun idx => (idx 2 : ℚ)⟩ : Tensor 5)
      (by decide) (by decide)⟩

/-! ### Fused source/target/segmentation code vectors (claim C5)

`F.one_hot` as used at `predict_from_data_iterator` (one-hot target code),
the fused codes built in `_internal_maybe_mirror_and_predict`
(`tsf_src_code`, `tsf_tgt_code`, `tsf_seg_code`), and the codes built
inline in `predict_from_files` for the task-specific contribution table
(`pff_tgt_code`, `pff_seg_code`). -/

/-- `F.one_hot(tgt, num_classes = n)`. -/
def one_hot (n tgt : ℕ) : List ℚ :=
  (List.range n).map (fun i => if i = tgt then 1 else 0)

/-- `tsf_src_code = [1 if i in available_channel else 0 for i in range(num_channel)]`. -/
def tsf_src_code (num_channel : ℕ) (available_channel : List ℕ) : List ℚ :=
  (List.range num_channel).map (fun i => if i ∈ available_channel then 1 else 0)

/-- `tsf_tgt_code = cat([tsf_src_code, target_code, zeros(1)])` with the
one-hot target code the caller builds. -/
def tsf_tgt_code (num_channel : ℕ) (available_channel : List ℕ) (tgt : ℕ) : List ℚ :=
  tsf_src_code num_channel available_channel ++ one_hot num_channel tgt ++ [0]

/-- `tsf_seg_code = cat([tsf_src_code, zeros_like(target_code), ones(1)])`. -/
def tsf_seg_code (num_channel : ℕ) (available_channel : List ℕ) : List ℚ :=
  tsf_src_code num_channel available_channel
    ++ (List.range num_channel).map (fun _ => 0) ++ [1]

/-- The target code built in `predict_from_files` for the task-specific
contribution table: `[1 if i != tgt_id else 0] + [1 if i == tgt_id else 0] + [0]`. -/
def pff_tgt_code (num_channel tgt : ℕ) : List ℚ :=
  ((List.range num_channel).map (fun i => if i ≠ tgt then 1 else 0))
    ++ ((List.range num_channel).map (fun i => if i = tgt then 1 else 0)) ++ [0]

/-- The segmentation code built in `predict_from_files`:
`[1 for i] + [0 for i] + [1]`. -/
def pff_seg_code (num_channel : ℕ) : List ℚ :=
  ((List.range num_channel).map (fun _ => (1 : ℚ)))
    ++ ((List.range num_channel).map (fun _ => (0 : ℚ))) ++ [1]

/-- `getD` through a map over `List.range`. -/
theorem getD_map_range (n i : ℕ) (f : ℕ → ℚ) (d : ℚ) (h : i < n) :
    ((List.range n).map f).getD i d = f i := by
  have hl : i < ((List.range n).map f).length := by simpa using h
  rw [List.getD_eq_getElem _ _ hl]
  simp

/-- `getD` in the first block of an `(a ++ b) ++ [c]` code vector. -/
theorem code_getD_first {a b : List ℚ} {c d : ℚ} {i : ℕ} (h : i < a.length) :
    ((a ++ b) ++ [c]).getD i d = a.getD i d := by
  rw [List.getD_append _ _ _ _ (by simp; omega), List.getD_append _ _ _ _ h]

/-- `getD` in the second block of an `(a ++ b) ++ [c]` code vector. -/
theorem code_getD_second {a b : List ℚ} {c d : ℚ} {j : ℕ} (h : j < b.length) :
    ((a ++ b) ++ [c]).getD (a.length + j) d = b.getD j d := by
  rw [List.getD_append _ _ _ _ (by simp; omega),
    List.getD_append_right _ _ _ _ (by omega)]
  congr 1
  omega

/-- `getD` at the trailing slot of an `(a ++ b) ++ [c]` code vector. -/
theorem code_getD_last {a b : List ℚ} {c d : ℚ} :
    ((a ++ b) ++ [c]).getD (a.length + b.length) d = c := by
  rw [List.getD_append_right _ _ _ _ (by simp)]
  simp

/-- Structure of a `(first block ++ second block) ++ [final slot]` code. -/
theorem codeBlocks (n : ℕ) (f g : ℕ → ℚ) (c : ℚ) :
    ((((List.range n).map f) ++ ((List.range n).map g)) ++ [c]).length = 2 * n + 1
    ∧ (∀ i, i < n →
        ((((List.range n).map f) ++ ((List.range n).map g)) ++ [c]).getD i 0 = f i)
    ∧ (∀ j, j < n →
        ((((List.range n).map f) ++ ((List.range n).map g)) ++ [c]).getD (n + j) 0 = g j)
    ∧ ((((List.range n).map f) ++ ((List.range n).map g)) ++ [c]).getD (2 * n) 0 = c := by
  refine ⟨?_, ?_, ?_, ?_⟩
  · simp; omega
  · intro i hi
    rw [code_getD_first (by simpa using hi)]
    exact getD_map_range n i f 0 hi
  · intro j hj
    have h2 := code_getD_second (a := (List.range n).map f)
      (b := (List.range n).map g) (c := c) (d := 0) (by simpa using hj)
    rw [List.length_map, List.length_range] at h2
    rw [h2]
    exact getD_map_range n j g 0 hj
  · have h3 := code_getD_last (a := (List.range n).map f)
      (b := (List.range n).map g) (c := c) (d := 0)
    rw [List.length_map, List.length_range, List.length_map,
      List.length_range] at h3
    rw [two_mul]
    exact h3

/-- Claim C5: every fused source/target/segmentation code the predictor
constructs has length `2 * num_channel + 1`; the first `num_channel` slots
are the binary source-availability mask (`tsf` codes) or a binary mask
(`predict_from_files` codes); the next `num_channel` slots hold exactly one
`1`, at position `num_channel + tgt`, in translation mode and are all zero
in segmentation mode; the final slot is `1` exactly for segmentation codes. -/
theorem fused_code_invariants (n tgt : ℕ) (avail : List ℕ) (htgt : tgt < n) :
    ((tsf_tgt_code n avail tgt).length = 2 * n + 1
      ∧ (tsf_seg_code n avail).length = 2 * n + 1
      ∧ (pff_tgt_code n tgt).length = 2 * n + 1
      ∧ (pff_seg_code n).length = 2 * n + 1)
    ∧ (∀ i, i < n →
        (tsf_tgt_code n avail tgt).getD i 0 = (if i ∈ avail then 1 else 0)
        ∧ (tsf_seg_code n avail).getD i 0 = (if i ∈ avail then 1 else 0))
    ∧ ((tsf_tgt_code n avail tgt).getD (n + tgt) 0 = 1
      ∧ ∀ j, j < n → j ≠ tgt → (tsf_tgt_code n avail tgt).getD (n + j) 0 = 0)
    ∧ (∀ j, j < n → (tsf_seg_code n avail).getD (n + j) 0 = 0)
    ∧ ((tsf_tgt_code n avail tgt).getD (2 * n) 0 = 0
      ∧ (tsf_seg_code n avail).getD (2 * n) 0 = 1)
    ∧ ((pff_tgt_code n tgt).getD (n + tgt) 0 = 1
      ∧ ∀ j, j < n → j ≠ tgt → (pff_tgt_code n tgt).getD (n + j) 0 = 0)
    ∧ (∀ j, j < n → (pff_seg_code n).getD (n + j) 0 = 0)
    ∧ ((pff_tgt_code n tgt).getD (2 * n) 0 = 0
      ∧ (pff_seg_code n).getD (2 * n) 0 = 1)
    ∧ (∀ i, i < n →
        (pff_tgt_code n tgt).getD i 0 = 0 ∨ (pff_tgt_code n tgt).getD i 0 = 1) := by
  have hT := codeBlocks n (fun i => if i ∈ avail then 1 else 0)
    (fun i => if i = tgt then 1 else 0) 0
  have hS := codeBlocks n (fun i => if i ∈ avail then 1 else 0)
    (fun _ => 0) 1
  have hPT := codeBlocks n (fun i => if i ≠ tgt then 1 else 0)
    (fun i => if i = tgt then 1 else 0) 0
  have hPS := codeBlocks n (fun _ => (1 : ℚ)) (fun _ => (0 : ℚ)) 1
  simp only [tsf_tgt_code, tsf_seg_code, tsf_src_code, one_hot,
    pff_tgt_code, pff_seg_code]
  obtain ⟨hT1, hT2, hT3, hT4⟩ := hT
  obtain ⟨hS1, hS2, hS3, hS4⟩ := hS
  obtain ⟨hPT1, hPT2, hPT3, hPT4⟩ := hPT
  obtain ⟨hPS1, hPS2, hPS3, hPS4⟩ := hPS
  refine ⟨⟨hT1, hS1, hPT1, hPS1⟩, ?_, ⟨?_, ?_⟩, ?_, ⟨?_, hS4⟩, ⟨?_, ?_⟩, ?_, ⟨?_, hPS4⟩, ?_⟩
  · intro i hi
    exact ⟨hT2 i hi, hS2 i hi⟩
  · rw [hT3 tgt htgt]; simp
  · intro j hj hne; rw [hT3 j hj]; simp [hne]
  · intro j hj; exact hS3 j hj
  · exact hT4
  · rw [hPT3 tgt htgt]; simp
  · intro j hj hne; rw [hPT3 j hj]; simp [hne]
  · intro j hj; exact hPS3 j hj
  · exact hPT4
  · intro i hi
    rw [hPT2 i hi]
    by_cases hc : i = tgt <;> simp [hc]

/-- Witness for C5: `num_channel = 4`, target index `2`, available
channels `[0, 1]`: the fused target code has its `1` at position `6`. -/
theorem fused_code_invariants_witness :
    (2 < 4) ∧ (tsf_tgt_code 4 [0, 1] 2).getD (4 + 2) 0 = 1 :=
  ⟨by decide, ((fused_code_invariants 4 2 [0, 1] (by decide)).2.2.1).1⟩

/-! ### Image encoder secondary convolution (claim C9)

`ImageEncoder.__init__` builds `self.p = nn.Conv3d(latent_space_dim,
latent_space_dim*2*2*2, kernel_size=2, stride=2, padding=0)`. -/

/-- Input channel count of `ImageEncoder.p` (the configured latent-space
dimension). -/
def imageEncoder_p_in_channels (latent_space_dim : ℕ) : ℕ := latent_space_dim

/-- Output channel count of `ImageEncoder.p`: `latent_space_dim * 2 * 2 * 2`. -/
def imageEncoder_p_out_channels (latent_space_dim : ℕ) : ℕ :=
  latent_space_dim * 2 * 2 * 2

/-- Kernel size of `ImageEncoder.p`. -/
def imageEncoder_p_kernel_size : ℕ := 2

/-- Stride of `ImageEncoder.p`. -/
def imageEncoder_p_stride : ℕ := 2

/-- Counterexample to C9 as stated: at latent dimension 4 the secondary
convolution's output channel count is 32, not `2 * 4 = 8`. -/
theorem encoder_secondary_conv_not_double :
    ¬ imageEncoder_p_out_channels 4 = 2 * imageEncoder_p_in_channels 4 := by
  decide

/-- Claim C9 (amended): the secondary 2-strided convolution of the image
encoder multiplies the channel count by `2 * 2 * 2 = 8`: its output channel
count is eight times its input channel count (the configured latent-space
dimension). -/
theorem encoder_secondary_conv_octuples (latent_space_dim : ℕ) :
    imageEncoder_p_out_channels latent_space_dim
      = 8 * imageEncoder_p_in_channels latent_space_dim := by
  simp [imageEncoder_p_out_channels, imageEncoder_p_in_channels]
  ring

/-! ### Input/output list management, overwrite-skip filtering (claim C8)

`nnSeq2SeqPredictor._manage_input_and_output_lists`, the block guarded by
`if not overwrite and output_filename_truncated is not None`.  The
filesystem is a boolean oracle `isfile`. -/

/-- One case is dropped when its expected output already exists: the label
file `o + file_ending`, and additionally the probability archive `o + ".npz"`
when probabilities are saved (`tmp[i] and tmp2[i]` in the source). -/
def already_predicted (isfile : String → Bool) (file_ending : String)
    (save_probabilities : Bool) (o : String) : Bool :=
  if save_probabilities then isfile (o ++ file_ending) && isfile (o ++ ".npz")
  else isfile (o ++ file_ending)

/-- The filtering block of `_manage_input_and_output_lists`: build `tmp`,
optionally conjoin the `.npz` checks, collect `not_existing_indices`, and
select those indices from all three parallel lists. -/
def manage_io_filter (isfile : String → Bool) (file_ending : String)
    (save_probabilities : Bool)
    (list_of_lists : List (List String))
    (output_filename_truncated : List String)
    (seg_from_prev_stage_files : List (Option String)) :
    List (List String) × List String × List (Option String) :=
  let tmp0 := output_filename_truncated.map (fun i => isfile (i ++ file_ending))
  let tmp := if save_probabilities then
      ((tmp0.zip (output_filename_truncated.map (fun i => isfile (i ++ ".npz")))).map
        (fun p => p.1 && p.2))
    else tmp0
  let not_existing_indices :=
    (List.range tmp.length).filter (fun i => !(tmp.getD i false))
  (not_existing_indices.map (fun i => list_of_lists.getD i []),
   not_existing_indices.map (fun i => output_filename_truncated.getD i ""),
   not_existing_indices.map (fun i => seg_from_prev_stage_files.getD i none))

/-- `_manage_input_and_output_lists` applies the filtering block exactly
when `overwrite` is false (with an output list present). -/
def manage_io_lists (isfile : String → Bool) (file_ending : String)
    (overwrite save_probabilities : Bool)
    (list_of_lists : List (List String))
    (output_filename_truncated : List String)
    (seg_from_prev_stage_files : List (Option String)) :
    List (List String) × List String × List (Option String) :=
  if !overwrite then
    manage_io_filter isfile file_ending save_probabilities list_of_lists
      output_filename_truncated seg_from_prev_stage_files
  else (list_of_lists, output_filename_truncated, seg_from_prev_stage_files)

/-- The two ways `tmp` is built both equal a single map of
`already_predicted` over the output prefixes. -/
theorem tmp_eq_map_already (isfile : String → Bool) (file_ending : String)
    (save_probabilities : Bool) (outputs : List String) :
    (if save_probabilities then
        (((outputs.map (fun i => isfile (i ++ file_ending))).zip
            (outputs.map (fun i => isfile (i ++ ".npz")))).map
          (fun p => p.1 && p.2))
      else outputs.map (fun i => isfile (i ++ file_ending)))
    = outputs.map (already_predicted isfile file_ending save_probabilities) := by
  cases save_probabilities with
  | false => simp [already_predicted]
  | true =>
      simp only [if_pos, already_predicted, List.zip_map', List.map_map]
      rfl

/-- Selecting the not-yet-predicted indices from any list running parallel
to the output list is the same as filtering the zipped pair on the output
component. -/
theorem select_indices_eq_zip_filter {α : Type} (p : String → Bool)
    (outputs : List String) (comp : List α) (d : α)
    (hlen : comp.length = outputs.length) :
    ((List.range (outputs.map p).length).filter
        (fun i => !((outputs.map p).getD i false))).map (fun i => comp.getD i d)
      = ((comp.zip outputs).filter (fun q => !(p q.2))).map Prod.fst := by
  induction outputs generalizing comp with
  | nil =>
      have hc : comp = [] := List.eq_nil_of_length_eq_zero (by simpa using hlen)
      subst hc; simp
  | cons o os ih =>
      match comp, hlen with
      | c :: cs, hlen =>
        have hlen' : cs.length = os.length := by simpa using hlen
        have ihc := ih cs hlen'
        rw [List.map_cons, List.length_cons, List.range_succ_eq_map]
        simp only [List.filter_cons, List.getD_cons_zero, List.getD_cons_succ,
          List.filter_map, Function.comp_def, List.map_map, List.zip_cons_cons]
        by_cases h : p o
        · simp only [h, Bool.not_true, Bool.false_eq_true, reduceIte,
            List.map_map, Function.comp_def, List.getD_cons_succ]
          exact ihc
        · simp only [h, Bool.not_false, reduceIte, List.map_cons,
            List.getD_cons_zero, List.map_map, Function.comp_def,
            List.getD_cons_succ]
          rw [ihc]

/-- Zipping a list with itself and filtering on the second component is
plain filtering. -/
theorem zip_self_filter_map (p : String → Bool) (l : List String) :
    ((l.zip l).filter (fun q => p q.2)).map Prod.fst = l.filter p := by
  induction l with
  | nil => simp
  | cons a t ih => by_cases h : p a <;> simp [h, ih]

/-- Claim C8: with `overwrite = false`, list management keeps exactly the
cases whose expected output does not already exist (label file, plus the
`.npz` archive when probabilities are saved), and applies the same
filtering consistently to the source lists, the output prefixes, and the
previous-stage segmentation paths. -/
theorem manage_io_overwrite_filter (isfile : String → Bool)
    (file_ending : String) (save_probabilities : Bool)
    (lists : List (List String)) (outputs : List String)
    (segs : List (Option String))
    (hl1 : lists.length = outputs.length)
    (hl2 : segs.length = outputs.length) :
    manage_io_lists isfile file_ending false save_probabilities lists outputs segs
      = (((lists.zip outputs).filter
            (fun q => !(already_predicted isfile file_ending save_probabilities q.2))).map
            Prod.fst,
         outputs.filter
            (fun o => !(already_predicted isfile file_ending save_probabilities o)),
         ((segs.zip outputs).filter
            (fun q => !(already_predicted isfile file_ending save_probabilities q.2))).map
            Prod.fst) := by
  have htmp := tmp_eq_map_already isfile file_ending save_probabilities outputs
  simp only [manage_io_lists, manage_io_filter, Bool.not_false, if_pos, htmp]
  simp only [Prod.mk.injEq]
  refine ⟨?_, ?_, ?_⟩
  · exact select_indices_eq_zip_filter _ outputs lists [] hl1
  · rw [select_indices_eq_zip_filter _ outputs outputs "" rfl]
    exact zip_self_filter_map
      (fun o => !(already_predicted isfile file_ending save_probabilities o)) outputs
  · exact select_indices_eq_zip_filter _ outputs segs none hl2

/-- Witness for C8, matching the spec fixture: 3 cases where the middle
case's output already exists; the filtered output list is the other two. -/
theorem manage_io_overwrite_filter_witness :
    manage_io_lists (fun s => s = "case1.nii") ".nii" false false
        [["a0"], ["b0"], ["c0"]] ["case0", "case1", "case2"]
        [none, none, none]
      = ([["a0"], ["c0"]], ["case0", "case2"], [none, none]) := by
  have h := manage_io_overwrite_filter (fun s => s = "case1.nii") ".nii" false
    [["a0"], ["b0"], ["c0"]] ["case0", "case1", "case2"] [none, none, none]
    (by decide) (by decide)
  rw [h]
  decide

/-! ### Synthesis-based sequence-contribution report (claim C4)

The end-of-run block of `predict_from_data_iterator`: an `N × N` score
matrix from the collected `one2one_translate_psnr` table, reduced to
per-channel `metric_ct` / `metric_cd`.  `np.nanstd` is a third-party
routine and enters as the function parameter `nanstd`; our PSNR
observations are exact rationals, so `np.nanmean` is the plain mean. -/

/-- The `eps = 1e-9` regulariser added to the standard deviation. -/
def sbscEps : ℚ := 1 / 1000000000

/-- `np.nanmean` on a NaN-free observation list: sum over length. -/
def nanmean (l : List ℚ) : ℚ := l.sum / l.length

/-- `all_psnr`: the two nested `for` loops concatenating every cell of the
PSNR table into one flat list. -/
def all_psnr (t : List (List (List ℚ))) : List ℚ :=
  t.foldl (fun acc p1 => p1.foldl (fun a p2 => a ++ p2) acc) []

/-- One cell of the score matrix `A`: zero when the `(i, j)` cell of the
PSNR table holds no observation, otherwise the normalised deviation of the
cell mean from the global mean. -/
def scoreA (nanstd : List ℚ → ℚ) (t : List (List (List ℚ))) (i j : ℕ) : ℚ :=
  if ((t.getD i []).getD j []).length = 0 then 0
  else (nanmean ((t.getD i []).getD j []) - nanmean (all_psnr t))
        / (nanstd (all_psnr t) + sbscEps)

/-- `metric_ct` for channel `i`: the inner `for j` loop accumulating
`A[i][j]`, divided by `N` at the end. -/
def metric_ct (nanstd : List ℚ → ℚ) (t : List (List (List ℚ))) (N i : ℕ) : ℚ :=
  ((List.range N).foldl (fun acc j => acc + scoreA nanstd t i j) 0) / N

/-- `metric_cd` for channel `i`: the inner `for j` loop accumulating
`-A[j][i]`, divided by `N` at the end. -/
def metric_cd (nanstd : List ℚ → ℚ) (t : List (List (List ℚ))) (N i : ℕ) : ℚ :=
  ((List.range N).foldl (fun acc j => acc - scoreA nanstd t j i) 0) / N

/-- The rows of `synthesis-based_sequence_contribution.csv`: one row
`(channel, metric_ct, metric_cd)` per channel index. -/
def sbscTable (nanstd : List ℚ → ℚ) (t : List (List (List ℚ))) (N : ℕ) :
    List (ℕ × ℚ × ℚ) :=
  (List.range N).map (fun i => (i, metric_ct nanstd t N i, metric_cd nanstd t N i))

/-- A `List.range` fold with subtraction is the negated `Finset` sum. -/
theorem foldl_range_sub (N : ℕ) (f : ℕ → ℚ) (c : ℚ) :
    (List.range N).foldl (fun acc j => acc - f j) c
      = c - ∑ j ∈ Finset.range N, f j := by
  induction N generalizing c with
  | zero => simp
  | succ n ih =>
      rw [List.range_succ, List.foldl_append, ih, Finset.sum_range_succ]
      simp only [List.foldl_cons, List.foldl_nil]
      ring

/-- Claim C4: every score-matrix cell with at least one observation equals
(cell mean − global mean) / (global standard deviation + 1e-9), empty
cells are 0, and for every channel `i` the reported contribution-to score
is `(1/N) · Σ_j A[i][j]` while contribution-from is `−(1/N) · Σ_j A[j][i]`. -/
theorem sbsc_report_formulas (nanstd : List ℚ → ℚ)
    (t : List (List (List ℚ))) (N i j : ℕ) (hi : i < N) (hj : j < N) :
    (((t.getD i []).getD j []).length ≠ 0 →
       scoreA nanstd t i j
         = (nanmean ((t.getD i []).getD j []) - nanmean (all_psnr t))
             / (nanstd (all_psnr t) + sbscEps))
    ∧ (((t.getD i []).getD j []).length = 0 → scoreA nanstd t i j = 0)
    ∧ metric_ct nanstd t N i
        = (1 / (N : ℚ)) * ∑ k ∈ Finset.range N, scoreA nanstd t i k
    ∧ metric_cd nanstd t N i
        = -((1 / (N : ℚ)) * ∑ k ∈ Finset.range N, scoreA nanstd t k i)
    ∧ (sbscTable nanstd t N).getD i (0, 0, 0)
        = (i, metric_ct nanstd t N i, metric_cd nanstd t N i) := by
  refine ⟨?_, ?_, ?_, ?_, ?_⟩
  · intro hne
    simp only [scoreA]
    rw [if_neg hne]
  · intro hz
    simp only [scoreA]
    rw [if_pos hz]
  · rw [metric_ct, foldl_range_add]
    rw [zero_add, one_div, mul_comm, div_eq_mul_inv]
  · rw [metric_cd, foldl_range_sub]
    rw [zero_sub, one_div, neg_div, mul_comm, div_eq_mul_inv]
  · have hl : i < ((List.range N).map (fun k =>
        (k, metric_ct nanstd t N k, metric_cd nanstd t N k))).length := by
      simpa using hi
    rw [sbscTable, List.getD_eq_getElem _ _ hl]
    simp

/-- Witness for C4 on a fixed 2 × 2 PSNR fixture with one empty cell. -/
theorem sbsc_report_formulas_witness :
    (0 < 2 ∧ 1 < 2)
    ∧ ((([[ [30], [] ], [ [20, 22], [28] ]] : List (List (List ℚ))).getD 0 []).getD 1 []).length = 0
    ∧ scoreA (fun l => l.length) [[ [30], [] ], [ [20, 22], [28] ]] 0 1 = 0 :=
  ⟨⟨by decide, by decide⟩, by decide,
    ((sbsc_report_formulas (fun l => l.length)
        [[ [30], [] ], [ [20, 22], [28] ]] 2 0 1 (by decide) (by decide)).2.1)
      (by decide)⟩

/-! ### Python-level failure model (claims C2, C3, C6, C7, C10)

Exceptions become `Except PyErr`; `os.path.join` on a possibly-`None`
prefix, attribute lookup on a possibly-unset attribute, and Python call
binding are modelled explicitly. -/

/-- Python exceptions relevant here: `RuntimeError` (the only class the
sliding-window fallback catches) versus everything else (`TypeError`,
`AttributeError`, ...). -/
inductive PyErr where
  | runtimeError : String → PyErr
  | other : String → PyErr
deriving DecidableEq, Repr

/-- Whether an exception is a `RuntimeError` (matched by the
`except RuntimeError` clause). -/
def isRuntimeError : PyErr → Bool
  | .runtimeError _ => true
  | .other _ => false

/-- Whether an `Except` computation produced a value. -/
def exceptIsOk {ε α : Type} : Except ε α → Bool
  | .ok _ => true
  | .error _ => false

/-- `os.path.join(prefix, sub)` where `prefix` may be Python `None`:
joining on `None` raises `TypeError`. -/
def osPathJoinOpt (p : Option String) (sub : String) : Except PyErr String :=
  match p with
  | none => .error (.other "TypeError: expected str, bytes or os.PathLike object, not NoneType")
  | some s => .ok (s ++ "/" ++ sub)

/-! #### Claim C2: `predict_single_npy_array` call binding

`predict_logits_from_preprocessed_data(self, data, target_code,
properties=None, with_attn=True)` — `target_code` has no default — while
`predict_single_npy_array` invokes it as
`self.predict_logits_from_preprocessed_data(dct['data'])`, one positional
argument. -/

/-- The parameter list of `predict_logits_from_preprocessed_data` after
`self`: name paired with whether a default value exists. -/
def predict_logits_params : List (String × Bool) :=
  [("data", false), ("target_code", false), ("properties", true), ("with_attn", true)]

/-- Python positional call binding: a call with `n` positional arguments
(and no keywords) succeeds exactly when `n` does not exceed the parameter
count and every unfilled parameter has a default. -/
def bindsPositional (params : List (String × Bool)) (n : ℕ) : Bool :=
  decide (n ≤ params.length) && (params.drop n).all (fun p => p.2)

/-- Number of positional arguments `predict_single_npy_array` passes to
`predict_logits_from_preprocessed_data` (just `dct['data']`). -/
def predict_single_npy_array_arg_count : ℕ := 1

/-- Claim C2 evaluated on the code: the single-array path's call to
`predict_logits_from_preprocessed_data` omits the required `target_code`
parameter, so every invocation of `predict_single_npy_array` raises
`TypeError` before prediction, export, or in-memory return can happen. -/
theorem predict_single_npy_array_call_fails :
    bindsPositional predict_logits_params predict_single_npy_array_arg_count
      = false := by
  decide

/-! #### Claim C3: `predict_from_data_iterator` with `ofile = None`

The per-case body runs `os.makedirs(os.path.join(ofile, ...))`
unconditionally inside the target loop; only the per-source export section
is guarded by `ofile is not None`. -/

/-- The per-target slice of the case body, restricted to its uses of
`ofile`: the two unconditional `os.path.join(ofile, ...)` calls
(`multi2one_inference` exports and the task-specific enhanced map), before
the guarded per-source section. -/
def process_case_target (ofile : Option String) : Except PyErr Unit := do
  let _ ← osPathJoinOpt ofile "multi2one_inference"
  let _ ← osPathJoinOpt ofile "explainability_visualization/task-specific_enhanced_map"
  pure ()

/-- The per-case body of `predict_from_data_iterator`: the target loop
`for tgt_seq in range(properties['num_channel'])`, each iteration starting
with the unconditional joins above. -/
def process_case (ofile : Option String) (num_channel : ℕ) : Except PyErr Unit :=
  (List.range num_channel).foldlM (fun _ _ => process_case_target ofile) ()

/-- Claim C3 evaluated on the code: for a record with `ofile = None` and at
least one channel, per-case processing raises `TypeError` at the first
`os.path.join(None, 'multi2one_inference')` instead of completing and
returning results in memory. -/
theorem process_case_none_ofile_fails (num_channel : ℕ)
    (h : 1 ≤ num_channel) :
    exceptIsOk (process_case none num_channel) = false := by
  obtain ⟨m, rfl⟩ : ∃ m, num_channel = m + 1 := ⟨num_channel - 1, by omega⟩
  simp [process_case, process_case_target, osPathJoinOpt, List.range_succ_eq_map,
    exceptIsOk, Bind.bind, Except.bind]

/-- Witness for C3 at one channel. -/
theorem process_case_none_ofile_fails_witness :
    (1 ≤ 1) ∧ exceptIsOk (process_case none 1) = false :=
  ⟨by decide, process_case_none_ofile_fails 1 (by decide)⟩

/-! #### Claim C6: single host-memory retry on device failure

`predict_sliding_window_return_logits`: when
`self.perform_everything_on_device and self.device != 'cpu'`, the internal
execution is attempted with `do_on_device = perform_everything_on_device`;
a `RuntimeError` triggers exactly one retry with `do_on_device = False`
(result buffers on host memory), whose failure propagates uncaught. -/

/-- The configuration bits the fallback branch reads:
`perform_everything_on_device` and the result of `self.device != 'cpu'`. -/
structure SWConfig where
  perform_everything_on_device : Bool
  device_ne_cpu : Bool

/-- The try/except skeleton of `predict_sliding_window_return_logits`,
abstracted over the internal execution `attempt` (argument = the
`do_on_device` flag).  Also returns the trace of `do_on_device` flags of
the internal calls actually made. -/
def predict_sliding_window {R : Type} (cfg : SWConfig)
    (attempt : Bool → Except PyErr R) : Except PyErr R × List Bool :=
  if cfg.perform_everything_on_device && cfg.device_ne_cpu then
    match attempt cfg.perform_everything_on_device with
    | .ok r => (.ok r, [cfg.perform_everything_on_device])
    | .error e =>
        if isRuntimeError e then
          (attempt false, [cfg.perform_everything_on_device, false])
        else (.error e, [cfg.perform_everything_on_device])
  else (attempt cfg.perform_everything_on_device, [cfg.perform_everything_on_device])

/-- Claim C6: configured to keep results on the accelerator, a
resource-exhaustion (`RuntimeError`) failure of the first on-device
attempt yields exactly one automatic retry with host-memory result buffers
(trace `[true, false]`), whose outcome — in particular a second failure —
propagates to the caller with no further retries. -/
theorem sliding_window_retry_once {R : Type} (cfg : SWConfig)
    (attempt : Bool → Except PyErr R) (e : PyErr)
    (hdev : cfg.perform_everything_on_device = true)
    (hne : cfg.device_ne_cpu = true)
    (hrt : isRuntimeError e = true)
    (hfail : attempt true = .error e) :
    predict_sliding_window cfg attempt = (attempt false, [true, false]) := by
  cases cfg
  cases hdev
  cases hne
  simp only [predict_sliding_window, Bool.and_self, if_pos, hfail, hrt]

/-- Witness for C6: both attempts fail with a `RuntimeError`; the result
is the second attempt's error, after exactly the two-call trace. -/
theorem sliding_window_retry_once_witness :
    (isRuntimeError (PyErr.runtimeError "CUDA out of memory") = true
      ∧ (fun b : Bool => if b then (Except.error (PyErr.runtimeError "CUDA out of memory") : Except PyErr ℕ)
          else .error (.runtimeError "second failure")) true
        = .error (.runtimeError "CUDA out of memory"))
    ∧ predict_sliding_window ⟨true, true⟩
        (fun b : Bool => if b then (Except.error (PyErr.runtimeError "CUDA out of memory") : Except PyErr ℕ)
          else .error (.runtimeError "second failure"))
      = ((fun b : Bool => if b then (Except.error (PyErr.runtimeError "CUDA out of memory") : Except PyErr ℕ)
          else .error (.runtimeError "second failure")) false, [true, false]) :=
  ⟨⟨by decide, rfl⟩,
    sliding_window_retry_once ⟨true, true⟩
      (fun b : Bool => if b then (Except.error (PyErr.runtimeError "CUDA out of memory") : Except PyErr ℕ)
        else .error (.runtimeError "second failure"))
      (.runtimeError "CUDA out of memory") rfl rfl (by decide) rfl⟩

/-! #### Claim C7: infinity in normalized translation logits is fatal

`_internal_predict_sliding_window_return_logits`: after
`predicted_logits /= n_predictions`, `torch.any(torch.isinf(...))` raises
`RuntimeError`.  Half-precision accumulator entries are modelled as finite
rationals or `inf` / `-inf` / `nan`. -/

/-- A half-precision accumulator value. -/
inductive HalfVal where
  | val : ℚ → HalfVal
  | inf : HalfVal
  | neginf : HalfVal
  | nan : HalfVal
deriving DecidableEq, Repr

/-- `torch.isinf` on one accumulator value. -/
def halfIsInf : HalfVal → Bool
  | .inf => true
  | .neginf => true
  | _ => false

/-- The post-normalization guard of
`_internal_predict_sliding_window_return_logits`, abstracted over the
normalized translation-logits values (the accumulators already divided by
`n_predictions`, which do not depend on the result device): raise
`RuntimeError` when any value is infinite, otherwise return the result. -/
def internal_sliding_window_inf_guard {R : Type}
    (predicted_logits : List HalfVal) (out : R) : Except PyErr R :=
  if predicted_logits.any halfIsInf then
    .error (.runtimeError
      "Encountered inf in predicted array. Aborting... If this problem persists, reduce value_scaling_factor in compute_gaussian or increase the dtype of predicted_logits to fp32")
  else .ok out

/-- Claim C7: if any normalized translation-logit value is infinite, the
internal sliding-window execution raises a fatal `RuntimeError` instead of
returning, and — because the recomputation is device-independent — the
full execution, including the host-memory fallback path, surfaces an error
for every configuration: the condition is never silently corrected into a
returned result. -/
theorem inf_logits_always_fatal {R : Type} (predicted_logits : List HalfVal)
    (out : R) (hinf : predicted_logits.any halfIsInf = true) :
    (exceptIsOk (internal_sliding_window_inf_guard predicted_logits out) = false)
    ∧ ∀ cfg : SWConfig,
        exceptIsOk (predict_sliding_window cfg
          (fun _ => internal_sliding_window_inf_guard predicted_logits out)).1
          = false := by
  have hguard : internal_sliding_window_inf_guard predicted_logits out
      = .error (.runtimeError
        "Encountered inf in predicted array. Aborting... If this problem persists, reduce value_scaling_factor in compute_gaussian or increase the dtype of predicted_logits to fp32") := by
    simp only [internal_sliding_window_inf_guard, hinf, if_pos]
  refine ⟨by rw [hguard]; rfl, ?_⟩
  intro cfg
  rcases cfg with ⟨pd, ne⟩
  cases pd <;> cases ne <;>
    simp [predict_sliding_window, hguard, isRuntimeError, exceptIsOk]

/-- Witness for C7: an injected accumulator holding an `inf` after
normalization. -/
theorem inf_logits_always_fatal_witness :
    ([HalfVal.val 1, HalfVal.inf].any halfIsInf = true)
    ∧ (exceptIsOk (internal_sliding_window_inf_guard
          [HalfVal.val 1, HalfVal.inf] (0 : ℚ)) = false)
    ∧ exceptIsOk (predict_sliding_window ⟨true, true⟩
        (fun _ => internal_sliding_window_inf_guard
          [HalfVal.val 1, HalfVal.inf] (0 : ℚ))).1 = false :=
  ⟨by decide, (inf_logits_always_fatal [HalfVal.val 1, HalfVal.inf] (0 : ℚ) (by decide)).1,
    (inf_logits_always_fatal [HalfVal.val 1, HalfVal.inf] (0 : ℚ) (by decide)).2 ⟨true, true⟩⟩

/-! #### Claim C10: `one2one_translate_psnr` is created only by
`predict_from_files`

`nnSeq2SeqPredictor.__init__` never sets `one2one_translate_psnr`;
`predict_from_files` assigns it (an `N × N` table of empty observation
lists) only inside the `if output_folder is not None` block;
`predict_from_data_iterator` reads it — per case when a processed target is
itself available, and unconditionally when building the end-of-run
synthesis-based contribution report, before returning `ret`. -/

/-- The predictor attribute state relevant to the PSNR table: Python
attributes may simply not exist, hence `Option`. -/
structure PredictorAttrs where
  one2one_translate_psnr : Option (List (List (List ℚ)))

/-- `nnSeq2SeqPredictor.__init__`: the attribute is never assigned. -/
def initPredictorAttrs : PredictorAttrs := ⟨none⟩

/-- The attribute assignment in `predict_from_files`: executed only when an
output folder is resolvable, creating the `num_channel × num_channel` table
of empty lists; otherwise the state is untouched. -/
def predict_from_files_attrs (st : PredictorAttrs) (output_folder : Option String)
    (num_channel : ℕ) : PredictorAttrs :=
  match output_folder with
  | some _ => ⟨some ((List.range num_channel).map
      (fun _ => (List.range num_channel).map (fun _ => [])))⟩
  | none => st

/-- Python attribute lookup: `AttributeError` when the attribute was never
assigned. -/
def getattr_one2one_translate_psnr (st : PredictorAttrs) :
    Except PyErr (List (List (List ℚ))) :=
  match st.one2one_translate_psnr with
  | some t => .ok t
  | none => .error (.other
      "AttributeError: nnSeq2SeqPredictor object has no attribute one2one_translate_psnr")

/-- The end-of-run tail of `predict_from_data_iterator`: reads
`self.one2one_translate_psnr` to build the synthesis-based contribution
rows, then returns the collected per-case results `ret`. -/
def data_iterator_report_and_return {R : Type} (nanstd : List ℚ → ℚ)
    (st : PredictorAttrs) (N : ℕ) (ret : R) :
    Except PyErr (List (ℕ × ℚ × ℚ) × R) := do
  let t ← getattr_one2one_translate_psnr st
  pure (sbscTable nanstd t N, ret)

/-- Claim C10: on any predictor whose attribute state still lacks
`one2one_translate_psnr` — as after `__init__`, and still after
`predict_from_files` ran without a resolvable output folder — the
end-of-run report step of `predict_from_data_iterator` raises
`AttributeError` instead of producing results; the attribute exists only
after `predict_from_files` ran with a resolvable output folder. -/
theorem data_iterator_requires_predict_from_files {R : Type}
    (nanstd : List ℚ → ℚ) (N : ℕ) (ret : R) (num_channel : ℕ) :
    (exceptIsOk (data_iterator_report_and_return nanstd initPredictorAttrs N ret)
        = false)
    ∧ (exceptIsOk (data_iterator_report_and_return nanstd
        (predict_from_files_attrs initPredictorAttrs none num_channel) N ret)
        = false)
    ∧ ∀ folder : String,
        exceptIsOk (data_iterator_report_and_return nanstd
          (predict_from_files_attrs initPredictorAttrs (some folder) num_channel)
          N ret) = true := by
  refine ⟨rfl, rfl, ?_⟩
  intro folder
  rfl

end NnSeq2Seq
